import Mathlib

/-!
Verification of the rdp2gui repository core against its specification.

The definitions below are shallow embeddings of the Python source
(src/rdp2gui.py).  Pure fragments become Lean functions; the stateful
credential/registry code becomes explicit state passing over a record
type.  Python dictionaries (string-keyed, insertion ordered) are
modelled as association lists with update-in-place-or-append
assignment; JSON (de)serialization of a credential map round-trips, so
serialized blobs are modelled by the maps themselves.
-/

set_option autoImplicit false

namespace Rdp2Gui

/-- The per-host advanced options dictionary, as stored by
`show_advanced_options` / read by `start_rdp_connection`
(src/rdp2gui.py).  Each field is `Option` because the Python code
reads the dictionary with `.get(key, default)`: `none` models an
absent key, and the `.getD` calls below carry the same defaults as the
Python `.get` calls. -/
structure AdvancedOpts where
  fullscreen : Option Bool := none
  resolution : Option String := none
  multimon : Option Bool := none
  selected_monitors : Option (List Int) := none
  disable_fonts : Option Bool := none
  disable_wallpaper : Option Bool := none
  disable_themes : Option Bool := none
  disable_aero : Option Bool := none
  disable_drag : Option Bool := none
  audio_mode : Option String := none
  clipboard : Option Bool := none
  redirect_drives : Option Bool := none
  nla : Option Bool := none
  compression : Option Bool := none

/-- The empty advanced-options dictionary `{}` returned by
`get_advanced_options` for an unknown host. -/
def emptyAdvancedOpts : AdvancedOpts := {}

/-- Python `",".join(str(m) for m in selected_monitors)`
(src/rdp2gui.py line 390); `toString : Int → String` agrees with
Python `str` on integers. -/
def joinCommaInts (l : List Int) : String :=
  String.intercalate "," (l.map toString)

/-- Shallow embedding of the command construction in
`RDPManager.start_rdp_connection` (src/rdp2gui.py lines 350-434).
`freerdp_cmd` is the result of `get_freerdp_command` ("xfreerdp3" or
"xfreerdp"); `home_dir` is `os.path.expanduser("~")`.  Python's
truthiness tests `if domain:` and `if selected_monitors:` are
emptiness tests on a string and a list. -/
def start_rdp_connection (freerdp_cmd hostname username domain password : String)
    (o : AdvancedOpts) (home_dir : String) : List String :=
  [freerdp_cmd]
  ++ ["/v:" ++ hostname]
  ++ (if domain = "" then ["/u:" ++ username] else ["/u:" ++ username, "/d:" ++ domain])
  ++ ["/p:" ++ password]
  ++ (if o.fullscreen.getD true then ["/f"]
      else ["/size:" ++ o.resolution.getD "1920x1080"])
  ++ (if o.multimon.getD false then
        ["/multimon"]
        ++ (if o.selected_monitors.getD [] = [] then []
            else ["/monitors:" ++ joinCommaInts (o.selected_monitors.getD [])])
      else [])
  ++ (if o.disable_fonts.getD true then ["-fonts"] else [])
  ++ (if o.disable_wallpaper.getD true then ["-wallpaper"] else [])
  ++ (if o.disable_themes.getD true then ["-themes"] else [])
  ++ (if o.disable_aero.getD true then ["-aero"] else [])
  ++ (if o.disable_drag.getD true then ["-window-drag"] else [])
  ++ (if o.audio_mode.getD "local" = "local" then ["/sound:sys:alsa"]
      else if o.audio_mode.getD "local" = "remote" then ["/audio-mode:1"]
      else if o.audio_mode.getD "local" = "disabled" then ["/audio-mode:2"]
      else [])
  ++ (if o.clipboard.getD true then ["+clipboard"] else [])
  ++ (if o.redirect_drives.getD false then ["/drive:home," ++ home_dir] else [])
  ++ ["/cert-ignore"]
  ++ (if o.nla.getD true then ["/sec:nla"] else ["/sec:rdp"])
  ++ (if o.compression.getD true then ["+compression"] else [])

/-- The token-ordering contract of spec section 4.1, transcribed from the
spec's words as the join of the twelve enumerated steps, in the
enumerated order: target; user then optional domain; password;
fullscreen-or-size; multimon and monitor list; the five
performance-disable flags (fonts, wallpaper, themes,
desktop-composition, window-drag); audio; clipboard; drive
redirection; certificate-ignore; security mode; compression.  This is
the spec-side definition used to check `start_rdp_connection` against
the specified order. -/
def spec_resolve (hostname username domain password : String)
    (o : AdvancedOpts) (home_dir : String) : List String :=
  List.flatten
    [ ["/v:" ++ hostname]
    , ["/u:" ++ username] ++ (if domain = "" then [] else ["/d:" ++ domain])
    , ["/p:" ++ password]
    , if o.fullscreen.getD true then ["/f"]
      else ["/size:" ++ o.resolution.getD "1920x1080"]
    , if o.multimon.getD false then
        ["/multimon"]
        ++ (if o.selected_monitors.getD [] = [] then []
            else ["/monitors:" ++ joinCommaInts (o.selected_monitors.getD [])])
      else []
    , (if o.disable_fonts.getD true then ["-fonts"] else [])
      ++ (if o.disable_wallpaper.getD true then ["-wallpaper"] else [])
      ++ (if o.disable_themes.getD true then ["-themes"] else [])
      ++ (if o.disable_aero.getD true then ["-aero"] else [])
      ++ (if o.disable_drag.getD true then ["-window-drag"] else [])
    , if o.audio_mode.getD "local" = "local" then ["/sound:sys:alsa"]
      else if o.audio_mode.getD "local" = "remote" then ["/audio-mode:1"]
      else if o.audio_mode.getD "local" = "disabled" then ["/audio-mode:2"]
      else []
    , if o.clipboard.getD true then ["+clipboard"] else []
    , if o.redirect_drives.getD false then ["/drive:home," ++ home_dir] else []
    , ["/cert-ignore"]
    , if o.nla.getD true then ["/sec:nla"] else ["/sec:rdp"]
    , if o.compression.getD true then ["+compression"] else [] ]

/-- The first three characters of a string; a discriminator that
separates the token families emitted by `start_rdp_connection`
independently of the variable payloads. -/
def take3 (s : String) : List Char := s.data.take 3

theorem take3_v (s : String) : take3 ("/v:" ++ s) = ['/', 'v', ':'] := rfl

theorem take3_u (s : String) : take3 ("/u:" ++ s) = ['/', 'u', ':'] := rfl

theorem take3_d (s : String) : take3 ("/d:" ++ s) = ['/', 'd', ':'] := rfl

theorem take3_p (s : String) : take3 ("/p:" ++ s) = ['/', 'p', ':'] := rfl

theorem take3_size (s : String) : take3 ("/size:" ++ s) = ['/', 's', 'i'] := rfl

theorem take3_monitors (s : String) : take3 ("/monitors:" ++ s) = ['/', 'm', 'o'] := rfl

theorem take3_drive (s : String) : take3 ("/drive:home," ++ s) = ['/', 'd', 'r'] := rfl

theorem take3_f : take3 "/f" = ['/', 'f'] := rfl

theorem take3_multimon : take3 "/multimon" = ['/', 'm', 'u'] := rfl

theorem take3_fonts : take3 "-fonts" = ['-', 'f', 'o'] := rfl

theorem take3_wallpaper : take3 "-wallpaper" = ['-', 'w', 'a'] := rfl

theorem take3_themes : take3 "-themes" = ['-', 't', 'h'] := rfl

theorem take3_aero : take3 "-aero" = ['-', 'a', 'e'] := rfl

theorem take3_windowdrag : take3 "-window-drag" = ['-', 'w', 'i'] := rfl

theorem take3_sound : take3 "/sound:sys:alsa" = ['/', 's', 'o'] := rfl

theorem take3_audio1 : take3 "/audio-mode:1" = ['/', 'a', 'u'] := rfl

theorem take3_audio2 : take3 "/audio-mode:2" = ['/', 'a', 'u'] := rfl

theorem take3_clipboard : take3 "+clipboard" = ['+', 'c', 'l'] := rfl

theorem take3_certignore : take3 "/cert-ignore" = ['/', 'c', 'e'] := rfl

theorem take3_secnla : take3 "/sec:nla" = ['/', 's', 'e'] := rfl

theorem take3_secrdp : take3 "/sec:rdp" = ['/', 's', 'e'] := rfl

theorem take3_compression : take3 "+compression" = ['+', 'c', 'o'] := rfl

theorem take3_xfreerdp : take3 "xfreerdp" = ['x', 'f', 'r'] := rfl

theorem take3_xfreerdp3 : take3 "xfreerdp3" = ['x', 'f', 'r'] := rfl

theorem map_ite {α β : Type} (f : α → β) (c : Prop) [Decidable c] (l1 l2 : List α) :
    List.map f (if c then l1 else l2) = if c then List.map f l1 else List.map f l2 :=
  apply_ite (List.map f) c l1 l2

theorem count_ite {α : Type} [BEq α] (x : α) (c : Prop) [Decidable c] (l1 l2 : List α) :
    List.count x (if c then l1 else l2) = if c then List.count x l1 else List.count x l2 :=
  apply_ite (List.count x) c l1 l2

/-- Counting is not decreased by mapping: occurrences of `x` in `l`
become occurrences of `f x` in `l.map f`. -/
theorem count_le_count_map {α β : Type} [BEq α] [LawfulBEq α] [BEq β] [LawfulBEq β]
    (l : List α) (f : α → β) (x : α) : l.count x ≤ (l.map f).count (f x) := by
  induction l with
  | nil => simp
  | cons a t ih =>
    by_cases hax : a = x
    · subst hax
      simp [List.count_cons, Nat.add_le_add ih]
    · simp only [List.map_cons, List.count_cons]
      by_cases hfx : f a = f x
      · simp only [hfx, beq_self_eq_true, if_true, beq_iff_eq, hax, if_false]
        omega
      · simp only [beq_iff_eq, hax, hfx, if_false]
        omega

/-- The command built by `start_rdp_connection` is the external
command name followed by exactly the twelve-step token sequence of
spec section 4.1. -/
theorem start_eq_spec (f h u d p : String) (o : AdvancedOpts) (home : String) :
    start_rdp_connection f h u d p o home = f :: spec_resolve h u d p o home := by
  by_cases hd : d = "" <;>
    simp [start_rdp_connection, spec_resolve, hd, List.append_assoc]

/-- `take3` image of the constructed command: every element is a
constant character triple, independent of the payload strings. -/
theorem count_take3_start (f h u d p : String) (o : AdvancedOpts) (home : String)
    (hf : f = "xfreerdp" ∨ f = "xfreerdp3") (t : List Char)
    (ht : t = ['/', 'v', ':'] ∨ t = ['/', 'u', ':'] ∨ t = ['/', 'p', ':']) :
    ((start_rdp_connection f h u d p o home).map take3).count t = 1 := by
  rcases hf with rfl | rfl <;> rcases ht with rfl | rfl | rfl <;>
    by_cases hd : d = "" <;>
      simp [start_rdp_connection, hd, List.count_append, List.count_cons,
        take3_v, take3_u, take3_d, take3_p, take3_size, take3_monitors, take3_drive,
        take3_f, take3_multimon, take3_fonts, take3_wallpaper, take3_themes,
        take3_aero, take3_windowdrag, take3_sound, take3_audio1, take3_audio2,
        take3_clipboard, take3_certignore, take3_secnla, take3_secrdp,
        take3_compression, take3_xfreerdp, take3_xfreerdp3, map_ite, count_ite]

theorem mem_v_start (f h u d p : String) (o : AdvancedOpts) (home : String) :
    ("/v:" ++ h) ∈ start_rdp_connection f h u d p o home := by
  simp [start_rdp_connection]

theorem mem_u_start (f h u d p : String) (o : AdvancedOpts) (home : String) :
    ("/u:" ++ u) ∈ start_rdp_connection f h u d p o home := by
  by_cases hd : d = "" <;> simp [start_rdp_connection, hd]

theorem mem_p_start (f h u d p : String) (o : AdvancedOpts) (home : String) :
    ("/p:" ++ p) ∈ start_rdp_connection f h u d p o home := by
  simp [start_rdp_connection]

/-- C1: for every valid input, the constructed argument sequence
contains the target token `/v:hostname`, the user token `/u:username`
and the password token `/p:password` exactly once each, and the whole
sequence is the external command name followed by the tokens of spec
section 4.1 in the fixed twelve-step order (`spec_resolve`). -/
theorem freerdp_command_tokens_once_in_spec_order
    (f h u d p : String) (o : AdvancedOpts) (home : String)
    (hf : f = "xfreerdp" ∨ f = "xfreerdp3") :
    (start_rdp_connection f h u d p o home).count ("/v:" ++ h) = 1 ∧
    (start_rdp_connection f h u d p o home).count ("/u:" ++ u) = 1 ∧
    (start_rdp_connection f h u d p o home).count ("/p:" ++ p) = 1 ∧
    start_rdp_connection f h u d p o home = f :: spec_resolve h u d p o home := by
  refine ⟨?_, ?_, ?_, start_eq_spec f h u d p o home⟩
  · have upper := count_le_count_map (start_rdp_connection f h u d p o home) take3 ("/v:" ++ h)
    rw [take3_v, count_take3_start f h u d p o home hf _ (Or.inl rfl)] at upper
    have lower := List.count_pos_iff.2 (mem_v_start f h u d p o home)
    omega
  · have upper := count_le_count_map (start_rdp_connection f h u d p o home) take3 ("/u:" ++ u)
    rw [take3_u, count_take3_start f h u d p o home hf _ (Or.inr (Or.inl rfl))] at upper
    have lower := List.count_pos_iff.2 (mem_u_start f h u d p o home)
    omega
  · have upper := count_le_count_map (start_rdp_connection f h u d p o home) take3 ("/p:" ++ p)
    rw [take3_p, count_take3_start f h u d p o home hf _ (Or.inr (Or.inr rfl))] at upper
    have lower := List.count_pos_iff.2 (mem_p_start f h u d p o home)
    omega

/-- Witness for C1 at a concrete input. -/
theorem freerdp_command_tokens_once_in_spec_order_witness :
    (("xfreerdp" : String) = "xfreerdp" ∨ ("xfreerdp" : String) = "xfreerdp3") ∧
    ((start_rdp_connection "xfreerdp" "srv" "bob" "CORP" "pw" emptyAdvancedOpts "/home/me").count
        ("/v:" ++ "srv") = 1 ∧
      (start_rdp_connection "xfreerdp" "srv" "bob" "CORP" "pw" emptyAdvancedOpts "/home/me").count
        ("/u:" ++ "bob") = 1 ∧
      (start_rdp_connection "xfreerdp" "srv" "bob" "CORP" "pw" emptyAdvancedOpts "/home/me").count
        ("/p:" ++ "pw") = 1 ∧
      start_rdp_connection "xfreerdp" "srv" "bob" "CORP" "pw" emptyAdvancedOpts "/home/me" =
        "xfreerdp" :: spec_resolve "srv" "bob" "CORP" "pw" emptyAdvancedOpts "/home/me") :=
  ⟨Or.inl rfl,
    freerdp_command_tokens_once_in_spec_order "xfreerdp" "srv" "bob" "CORP" "pw"
      emptyAdvancedOpts "/home/me" (Or.inl rfl)⟩

theorem count_take3_start_d0 (f h u p : String) (o : AdvancedOpts) (home : String)
    (hf : f = "xfreerdp" ∨ f = "xfreerdp3") :
    ((start_rdp_connection f h u "" p o home).map take3).count ['/', 'd', ':'] = 0 := by
  rcases hf with rfl | rfl <;>
    simp [start_rdp_connection, List.count_append, List.count_cons,
      take3_v, take3_u, take3_d, take3_p, take3_size, take3_monitors, take3_drive,
      take3_f, take3_multimon, take3_fonts, take3_wallpaper, take3_themes,
      take3_aero, take3_windowdrag, take3_sound, take3_audio1, take3_audio2,
      take3_clipboard, take3_certignore, take3_secnla, take3_secrdp,
      take3_compression, take3_xfreerdp, take3_xfreerdp3, map_ite, count_ite]

theorem count_take3_start_no_f (f h u d p : String) (o : AdvancedOpts) (home : String)
    (hf : f = "xfreerdp" ∨ f = "xfreerdp3") (hfs : o.fullscreen.getD true = false) :
    ((start_rdp_connection f h u d p o home).map take3).count ['/', 'f'] = 0 := by
  rcases hf with rfl | rfl <;> by_cases hd : d = "" <;>
    simp [start_rdp_connection, hd, hfs, List.count_append, List.count_cons,
      take3_v, take3_u, take3_d, take3_p, take3_size, take3_monitors, take3_drive,
      take3_f, take3_multimon, take3_fonts, take3_wallpaper, take3_themes,
      take3_aero, take3_windowdrag, take3_sound, take3_audio1, take3_audio2,
      take3_clipboard, take3_certignore, take3_secnla, take3_secrdp,
      take3_compression, take3_xfreerdp, take3_xfreerdp3, map_ite, count_ite]

theorem count_take3_start_no_size (f h u d p : String) (o : AdvancedOpts) (home : String)
    (hf : f = "xfreerdp" ∨ f = "xfreerdp3") (hfs : o.fullscreen.getD true = true) :
    ((start_rdp_connection f h u d p o home).map take3).count ['/', 's', 'i'] = 0 := by
  rcases hf with rfl | rfl <;> by_cases hd : d = "" <;>
    simp [start_rdp_connection, hd, hfs, List.count_append, List.count_cons,
      take3_v, take3_u, take3_d, take3_p, take3_size, take3_monitors, take3_drive,
      take3_f, take3_multimon, take3_fonts, take3_wallpaper, take3_themes,
      take3_aero, take3_windowdrag, take3_sound, take3_audio1, take3_audio2,
      take3_clipboard, take3_certignore, take3_secnla, take3_secrdp,
      take3_compression, take3_xfreerdp, take3_xfreerdp3, map_ite, count_ite]

/-- C8: with an empty domain the command contains no `/d:` token at
all; with a non-empty domain the domain token sits immediately after
the username token (positions 2 and 3, right after the command name
and the target token). -/
theorem domain_token_placement (f h u d p : String) (o : AdvancedOpts) (home : String)
    (hf : f = "xfreerdp" ∨ f = "xfreerdp3") :
    (d = "" → ∀ d' : String, ("/d:" ++ d') ∉ start_rdp_connection f h u d p o home) ∧
    (d ≠ "" → (start_rdp_connection f h u d p o home)[2]? = some ("/u:" ++ u) ∧
      (start_rdp_connection f h u d p o home)[3]? = some ("/d:" ++ d)) := by
  constructor
  · intro hd d' hmem
    subst hd
    have hmap := List.mem_map_of_mem take3 hmem
    rw [take3_d] at hmap
    exact (List.count_eq_zero.mp (count_take3_start_d0 f h u p o home hf)) hmap
  · intro hd
    constructor <;> simp [start_rdp_connection, hd]

/-- Witness for C8 at concrete inputs: one empty-domain instance and
one instance with domain "CORP". -/
theorem domain_token_placement_witness :
    (("" : String) = "" ∧
      (("/d:" ++ "CORP") ∉ start_rdp_connection "xfreerdp" "srv" "bob" "" "pw"
        emptyAdvancedOpts "/home/me")) ∧
    (("CORP" : String) ≠ "" ∧
      (start_rdp_connection "xfreerdp" "srv" "bob" "CORP" "pw" emptyAdvancedOpts "/home/me")[2]? =
        some ("/u:" ++ "bob") ∧
      (start_rdp_connection "xfreerdp" "srv" "bob" "CORP" "pw" emptyAdvancedOpts "/home/me")[3]? =
        some ("/d:" ++ "CORP")) :=
  ⟨⟨rfl, (domain_token_placement "xfreerdp" "srv" "bob" "" "pw" emptyAdvancedOpts "/home/me"
      (Or.inl rfl)).1 rfl "CORP"⟩,
    ⟨by decide, (domain_token_placement "xfreerdp" "srv" "bob" "CORP" "pw" emptyAdvancedOpts
      "/home/me" (Or.inl rfl)).2 (by decide)⟩⟩

/-- C9: with `fullscreen = false` and `resolution = "1024x768"` the
command contains the size token `/size:1024x768` and no fullscreen
flag `/f`; with fullscreen in effect (explicitly true or defaulted)
the command contains `/f` and no size token. -/
theorem fullscreen_size_tokens (f h u d p : String) (o : AdvancedOpts) (home : String)
    (hf : f = "xfreerdp" ∨ f = "xfreerdp3") :
    (o.fullscreen = some false → o.resolution = some "1024x768" →
      "/size:1024x768" ∈ start_rdp_connection f h u d p o home ∧
      "/f" ∉ start_rdp_connection f h u d p o home) ∧
    (o.fullscreen.getD true = true →
      "/f" ∈ start_rdp_connection f h u d p o home ∧
      ∀ r : String, ("/size:" ++ r) ∉ start_rdp_connection f h u d p o home) := by
  constructor
  · intro hfs hres
    have hfd : o.fullscreen.getD true = false := by rw [hfs]; rfl
    constructor
    · have : ("/size:" ++ "1024x768") ∈ start_rdp_connection f h u d p o home := by
        by_cases hd : d = "" <;> simp [start_rdp_connection, hd, hfd, hres]
      simpa using this
    · intro hmem
      have hmap := List.mem_map_of_mem take3 hmem
      rw [take3_f] at hmap
      exact (List.count_eq_zero.mp (count_take3_start_no_f f h u d p o home hf hfd)) hmap
  · intro hfd
    constructor
    · by_cases hd : d = "" <;> simp [start_rdp_connection, hd, hfd]
    · intro r hmem
      have hmap := List.mem_map_of_mem take3 hmem
      rw [take3_size] at hmap
      exact (List.count_eq_zero.mp (count_take3_start_no_size f h u d p o home hf hfd)) hmap

/-- Witness for C9 at concrete inputs: one windowed instance with
resolution 1024x768 and one fullscreen instance. -/
theorem fullscreen_size_tokens_witness :
    (({ emptyAdvancedOpts with fullscreen := some false, resolution := some "1024x768"
        : AdvancedOpts }).fullscreen = some false ∧
      "/size:1024x768" ∈ start_rdp_connection "xfreerdp" "srv" "bob" "" "pw"
        { emptyAdvancedOpts with fullscreen := some false, resolution := some "1024x768" }
        "/home/me" ∧
      "/f" ∉ start_rdp_connection "xfreerdp" "srv" "bob" "" "pw"
        { emptyAdvancedOpts with fullscreen := some false, resolution := some "1024x768" }
        "/home/me") ∧
    (emptyAdvancedOpts.fullscreen.getD true = true ∧
      "/f" ∈ start_rdp_connection "xfreerdp" "srv" "bob" "" "pw" emptyAdvancedOpts "/home/me" ∧
      ("/size:" ++ "1024x768") ∉ start_rdp_connection "xfreerdp" "srv" "bob" "" "pw"
        emptyAdvancedOpts "/home/me") := by
  refine ⟨⟨rfl, ?_⟩, ⟨rfl, ?_⟩⟩
  · exact (fullscreen_size_tokens "xfreerdp" "srv" "bob" "" "pw"
      { emptyAdvancedOpts with fullscreen := some false, resolution := some "1024x768" }
      "/home/me" (Or.inl rfl)).1 rfl rfl
  · have := (fullscreen_size_tokens "xfreerdp" "srv" "bob" "" "pw" emptyAdvancedOpts
      "/home/me" (Or.inl rfl)).2 rfl
    exact ⟨this.1, this.2 "1024x768"⟩

/-- Python `str.strip()`: drop leading and trailing whitespace
characters. -/
def pyStrip (s : String) : String :=
  ⟨((s.data.dropWhile Char.isWhitespace).reverse.dropWhile Char.isWhitespace).reverse⟩

/-- Python `str.split(",")` on a character list: split at every comma,
keeping empty pieces (`"".split(",") == [""]`, `",".split(",") == ["", ""]`). -/
def splitCommaAux : List Char → List Char → List String
  | [], acc => [⟨acc.reverse⟩]
  | c :: rest, acc =>
    if c = ',' then ⟨acc.reverse⟩ :: splitCommaAux rest [] else splitCommaAux rest (c :: acc)

/-- Python `s.split(",")`. -/
def splitComma (s : String) : List String := splitCommaAux s.data []

/-- CPython `int()` applied to an already-stripped string: an optional
sign followed by at least one decimal digit.  (CPython's `int`
additionally tolerates surrounding whitespace and underscore grouping
and non-ASCII digits; the callers modelled here always pre-strip
their argument, and no claim depends on the exotic digit forms.) -/
def digitsVal : List Char → Option Nat
  | [] => none
  | cs =>
    cs.foldl
      (fun acc c =>
        match acc with
        | none => none
        | some n => if c.isDigit then some (n * 10 + (c.toNat - '0'.toNat)) else none)
      (some 0)

def pyIntChars : List Char → Option Int
  | [] => none
  | c :: rest =>
    if c = '+' then (digitsVal rest).map Int.ofNat
    else if c = '-' then (digitsVal rest).map (fun n => -(Int.ofNat n))
    else (digitsVal (c :: rest)).map Int.ofNat

def python_int (s : String) : Option Int := pyIntChars s.data

/-- `int(m.strip()) for m in monitor_text.split(",")`, failing as a
whole if any element fails (a thrown `ValueError` aborts the whole
list comprehension). -/
def parseAll : List String → Option (List Int)
  | [] => some []
  | m :: rest =>
    match python_int (pyStrip m), parseAll rest with
    | some v, some vs => some (v :: vs)
    | _, _ => none

/-- Shallow embedding of the monitor-selection parsing in
`show_advanced_options` (src/rdp2gui.py lines 705-711): the stored
`selected_monitors` starts as `[]`; if the stripped entry text is
non-empty the comma-separated pieces are parsed with `int`, and on
any failure the exception is swallowed, leaving `[]`. -/
def parse_selected_monitors (raw : String) : List Int :=
  if pyStrip raw = "" then []
  else
    match parseAll (splitComma (pyStrip raw)) with
    | some xs => xs
    | none => []

theorem parseAll_eq_none_of_mem {l : List String} {m : String}
    (hm : m ∈ l) (hfail : python_int (pyStrip m) = none) : parseAll l = none := by
  induction l with
  | nil => cases hm
  | cons a rest ih =>
    rcases List.mem_cons.mp hm with rfl | hmem
    · simp [parseAll, hfail]
    · simp only [parseAll, ih hmem]
      cases python_int (pyStrip a) <;> rfl

theorem parseAll_mem {l : List String} {xs : List Int} (hp : parseAll l = some xs)
    {x : Int} (hx : x ∈ xs) : ∃ m ∈ l, python_int (pyStrip m) = some x := by
  induction l generalizing xs with
  | nil =>
    simp only [parseAll, Option.some.injEq] at hp
    subst hp
    cases hx
  | cons a rest ih =>
    simp only [parseAll] at hp
    cases ha : python_int (pyStrip a) with
    | none => rw [ha] at hp; cases hp
    | some v =>
      rw [ha] at hp
      cases hr : parseAll rest with
      | none => rw [hr] at hp; cases hp
      | some vs =>
        rw [hr] at hp
        cases hp
        rcases List.mem_cons.mp hx with rfl | hxs
        · exact ⟨a, List.mem_cons_self a rest, ha⟩
        · obtain ⟨m, hm, hv⟩ := ih hr hxs
          exact ⟨m, List.mem_cons_of_mem a hm, hv⟩

theorem python_int_nonneg {s : String} {x : Int}
    (h : python_int s = some x) (hh : s.data.head? ≠ some '-') : 0 ≤ x := by
  unfold python_int at h
  cases hcs : s.data with
  | nil => rw [hcs] at h; cases h
  | cons c rest =>
    rw [hcs] at h
    rw [pyIntChars] at h
    by_cases hplus : c = '+'
    · rw [if_pos hplus] at h
      obtain ⟨n, _, rfl⟩ := Option.map_eq_some'.mp h
      exact Int.natCast_nonneg n
    · rw [if_neg hplus] at h
      by_cases hminus : c = '-'
      · exact absurd (by rw [hcs, hminus]; rfl) hh
      · rw [if_neg hminus] at h
        obtain ⟨n, _, rfl⟩ := Option.map_eq_some'.mp h
        exact Int.natCast_nonneg n

/-- C7: monitor-list parsing is all-or-nothing — if any
comma-separated piece of the (stripped) entry text fails to parse as
an integer, the stored monitor list is the empty list, never a
partial prefix; the parse function is total, so no error reaches the
caller. -/
theorem monitors_parse_all_or_nothing (raw : String)
    (hbad : ∃ m ∈ splitComma (pyStrip raw), python_int (pyStrip m) = none) :
    parse_selected_monitors raw = [] := by
  unfold parse_selected_monitors
  by_cases hs : pyStrip raw = ""
  · simp [hs]
  · obtain ⟨m, hm, hfail⟩ := hbad
    rw [if_neg hs, parseAll_eq_none_of_mem hm hfail]

/-- Witness for C7 at the spec's example input "0,1,x". -/
theorem monitors_parse_all_or_nothing_witness :
    (∃ m ∈ splitComma (pyStrip "0,1,x"), python_int (pyStrip m) = none) ∧
    parse_selected_monitors "0,1,x" = [] :=
  ⟨by decide, monitors_parse_all_or_nothing "0,1,x" (by decide)⟩

/-- C6 counterexample: the free-text "-1" is accepted by the parser
(Python `int("-1")` succeeds) and the stored monitor list [-1]
contains a negative integer, so the claimed non-negativity fails. -/
theorem monitors_negative_accepted :
    parse_selected_monitors "-1" = [-1] ∧
    ¬ (∀ x ∈ parse_selected_monitors "-1", 0 ≤ x) := by
  constructor
  · decide
  · intro hall
    have := hall (-1) (by decide)
    omega

/-- C6 amended: every element of the stored monitor list is an
integer parsed from a token of the input, and non-negativity does
hold whenever no (stripped) token begins with a minus sign; the
parser itself also accepts negative integers such as "-1". -/
theorem monitors_nonneg_unless_minus (raw : String)
    (hsign : ∀ m ∈ splitComma (pyStrip raw), (pyStrip m).data.head? ≠ some '-') :
    ∀ x ∈ parse_selected_monitors raw, 0 ≤ x := by
  unfold parse_selected_monitors
  by_cases hs : pyStrip raw = ""
  · simp [hs]
  · rw [if_neg hs]
    cases hp : parseAll (splitComma (pyStrip raw)) with
    | none => simp
    | some xs =>
      intro x hx
      obtain ⟨m, hm, hv⟩ := parseAll_mem hp hx
      exact python_int_nonneg hv (hsign m hm)

/-- Witness for the amended C6 at the input "0, 2". -/
theorem monitors_nonneg_unless_minus_witness :
    (∀ m ∈ splitComma (pyStrip "0, 2"), (pyStrip m).data.head? ≠ some '-') ∧
    (∀ x ∈ parse_selected_monitors "0, 2", 0 ≤ x) :=
  ⟨by decide, monitors_nonneg_unless_minus "0, 2" (by decide)⟩

/-- A Python string-keyed dictionary as an insertion-ordered
association list. -/
abbrev Dict (α : Type) : Type := List (String × α)

/-- Python `d[k] = v`: update in place if the key is present,
otherwise append at the end. -/
def dictSet {α : Type} (m : Dict α) (k : String) (v : α) : Dict α :=
  if m.any (fun q => q.1 == k) then
    m.map (fun q => if q.1 == k then (k, v) else q)
  else m ++ [(k, v)]

/-- Python `d.get(k)`. -/
def dictGet {α : Type} (m : Dict α) (k : String) : Option α :=
  (m.find? (fun q => q.1 == k)).map (fun q => q.2)

theorem dictGet_dictSet {α : Type} (m : Dict α) (k : String) (v : α) :
    dictGet (dictSet m k v) k = some v := by
  unfold dictSet
  by_cases hk : m.any (fun q => q.1 == k)
  · rw [if_pos hk]
    induction m with
    | nil => cases hk
    | cons q t ih =>
      by_cases hq : q.1 == k
      · simp [dictGet, List.find?, hq]
      · have ht : t.any (fun q => q.1 == k) := by
          rcases List.any_eq_true.mp hk with ⟨x, hx, hxk⟩
          rcases List.mem_cons.mp hx with rfl | hxt
          · exact absurd hxk (by simpa using hq)
          · exact List.any_eq_true.mpr ⟨x, hxt, hxk⟩
        have := ih ht
        simpa [dictGet, List.find?, hq] using this
  · rw [if_neg hk]
    induction m with
    | nil => simp [dictGet, List.find?]
    | cons q t ih =>
      have hq : ¬(q.1 == k) := by
        intro hq
        exact hk (List.any_eq_true.mpr ⟨q, List.mem_cons_self q t, hq⟩)
      have hkt : ¬t.any (fun q => q.1 == k) := by
        intro hkt
        rcases List.any_eq_true.mp hkt with ⟨x, hx, hxk⟩
        exact hk (List.any_eq_true.mpr ⟨x, List.mem_cons_of_mem q hx, hxk⟩)
      simpa [dictGet, List.find?, hq] using ih hkt

/-- The per-host profile stored under `config["connections"][hostname]`
(src/rdp2gui.py): a Python dictionary whose keys are only present once
written, hence `Option` fields. -/
structure ConnInfo where
  username : Option String := none
  domain : Option String := none
  last_used : Option String := none
  advanced : Option AdvancedOpts := none

/-- The configuration document `self.config` (persisted as
config.json): `connections` maps hostname to profile, `recent` is the
MRU list of hostnames. -/
structure Config where
  connections : Dict ConnInfo := []
  recent : List String := []

def empty_config : Config := {}

/-- The recent-list maintenance of `save_connection_info`
(src/rdp2gui.py lines 872-879): remove every occurrence of the
hostname, insert it at the front, truncate to 10. -/
def upsert_recent (recent : List String) (hostname : String) : List String :=
  (hostname :: recent.filter (fun r => r != hostname)).take 10

/-- Shallow embedding of `save_connection_info` (src/rdp2gui.py lines
856-882): create the profile record if absent, set username, domain
and the `last_used` timestamp (`now`, a formatted local time string
supplied by the caller), and maintain the recent list. -/
def save_connection_info (cfg : Config) (hostname username domain now : String) : Config :=
  { connections :=
      dictSet cfg.connections hostname
        { (dictGet cfg.connections hostname).getD {} with
          username := some username, domain := some domain, last_used := some now }
    recent := upsert_recent cfg.recent hostname }

/-- The credential map (`self.stored_credentials` / credentials.json
content / the JSON blob under the keyring entry). -/
abbrev CredMap : Type := Dict String

/-- The credential key `f"{hostname}:{username}"` (src/rdp2gui.py
lines 982 and 1004). -/
def cred_key (hostname username : String) : String :=
  hostname ++ ":" ++ username

/-- The state touched by the credential-store code: the in-memory
map, the keyring toggle and availability flags, the single keyring
entry ("rdp2gui"/"credentials", holding the JSON of the whole map),
fault switches describing whether keyring operations raise, the local
credentials file (content and permission bits), and the configuration
document (never touched by credential code).  A keyring operation
whose fault switch is on models `keyring.*` raising an exception. -/
structure St where
  stored_credentials : CredMap := []
  keyring_available : Bool := false
  use_keyring : Bool := false
  keyring_entry : Option CredMap := none
  keyring_set_fails : Bool := false
  keyring_get_fails : Bool := false
  keyring_delete_fails : Bool := false
  cred_file : Option CredMap := none
  cred_file_mode : Nat := 0
  config : Config := {}

/-- Shallow embedding of `save_password` (src/rdp2gui.py lines
980-1000): update the in-memory map; if the keyring is available and
enabled try `keyring.set_password` and return on success; on failure
(or with no keyring) write the credentials file and chmod it 0600. -/
def save_password (st : St) (hostname username password : String) : St :=
  let creds := dictSet st.stored_credentials (cred_key hostname username) password
  if st.keyring_available && st.use_keyring && !st.keyring_set_fails then
    { st with stored_credentials := creds, keyring_entry := some creds }
  else
    { st with stored_credentials := creds, cred_file := some creds, cred_file_mode := 0o600 }

/-- Shallow embedding of `load_credentials` (src/rdp2gui.py lines
954-978): if the keyring is available and enabled, try
`keyring.get_password`; a stored entry is returned directly (its JSON
text is always truthy), a missing entry or an exception falls back to
the file; reading the file also re-chmods it to 0600; a missing file
yields the empty map. -/
def load_credentials (st : St) : CredMap × St :=
  if st.keyring_available && st.use_keyring && !st.keyring_get_fails
      && st.keyring_entry.isSome then
    (st.keyring_entry.getD [], st)
  else
    match st.cred_file with
    | some m => (m, { st with cred_file_mode := 0o600 })
    | none => ([], st)

/-- Shallow embedding of `get_password_for_connection` (src/rdp2gui.py
lines 1002-1005). -/
def get_password_for_connection (st : St) (hostname username : String) : Option String :=
  dictGet st.stored_credentials (cred_key hostname username)

/-- Shallow embedding of the confirmed branch of
`clear_saved_passwords` (src/rdp2gui.py lines 1024-1038): reset the
in-memory map; if the keyring is enabled, try
`keyring.delete_password`, swallowing any exception; remove the
credentials file if it exists. -/
def clear_saved_passwords (st : St) : St :=
  let st1 := { st with stored_credentials := ([] : CredMap) }
  let st2 :=
    if st1.keyring_available && st1.use_keyring && !st1.keyring_delete_fails then
      { st1 with keyring_entry := none }
    else st1
  { st2 with cred_file := none }

/-- C5: the credential key `hostname ++ ":" ++ username` is not
injective — the distinct pairs ("pc", "x:y") and ("pc:x", "y")
collide, and after saving a password for the first pair, retrieval
for the second pair returns that same password. -/
theorem cred_key_collision :
    cred_key "pc" "x:y" = cred_key "pc:x" "y" ∧
    (("pc" : String), ("x:y" : String)) ≠ (("pc:x" : String), ("y" : String)) ∧
    get_password_for_connection (save_password {} "pc" "x:y" "secret") "pc:x" "y" =
      some "secret" := by
  refine ⟨rfl, by decide, ?_⟩
  decide

/-- C10: clearing saved passwords touches only credential state — the
configuration document (connection profiles and the recent list) is
unchanged for every starting state. -/
theorem clear_preserves_profiles (st : St) :
    (clear_saved_passwords st).config.connections = st.config.connections ∧
    (clear_saved_passwords st).config.recent = st.config.recent := by
  unfold clear_saved_passwords
  by_cases hc : st.keyring_available && st.use_keyring && !st.keyring_delete_fails <;>
    simp [hc]

/-- C2: when the secret-service write raises (and, consequently for a
backend whose writes never succeed, no keyring entry is stored),
`save_password` falls back to the local file: a subsequent
`load_credentials` in the same environment returns a map holding the
password under `hostname:username`, the credentials file exists, and
it carries mode 0600. -/
theorem save_password_file_fallback (st : St) (h u p : String)
    (hw : st.keyring_set_fails = true) (he : st.keyring_entry = none) :
    dictGet (load_credentials (save_password st h u p)).1 (cred_key h u) = some p ∧
    (save_password st h u p).cred_file.isSome = true ∧
    (save_password st h u p).cred_file_mode = 0o600 := by
  have hsave : save_password st h u p =
      { st with stored_credentials := dictSet st.stored_credentials (cred_key h u) p, cred_file := some (dictSet st.stored_credentials (cred_key h u) p), cred_file_mode := 0o600 } := by
    unfold save_password
    rw [hw]
    simp
  refine ⟨?_, by simp [hsave], by simp [hsave]⟩
  rw [hsave]
  unfold load_credentials
  simp only [he, Option.isSome_none, Bool.and_false, Bool.false_eq_true, if_false]
  exact dictGet_dictSet st.stored_credentials (cred_key h u) p

/-- Witness for C2 at a concrete state (keyring enabled but its write
raising, no stored entry). -/
theorem save_password_file_fallback_witness :
    (({ keyring_available := true, use_keyring := true, keyring_set_fails := true
        : St }).keyring_set_fails = true ∧
      ({ keyring_available := true, use_keyring := true, keyring_set_fails := true
        : St }).keyring_entry = none) ∧
    (dictGet (load_credentials (save_password
          { keyring_available := true, use_keyring := true, keyring_set_fails := true }
          "srv" "bob" "pw")).1 (cred_key "srv" "bob") = some "pw" ∧
      (save_password
          { keyring_available := true, use_keyring := true, keyring_set_fails := true }
          "srv" "bob" "pw").cred_file.isSome = true ∧
      (save_password
          { keyring_available := true, use_keyring := true, keyring_set_fails := true }
          "srv" "bob" "pw").cred_file_mode = 0o600) :=
  ⟨⟨rfl, rfl⟩,
    save_password_file_fallback
      { keyring_available := true, use_keyring := true, keyring_set_fails := true }
      "srv" "bob" "pw" rfl rfl⟩

/-- C3 counterexample: with the keyring active, a stored keyring
entry, and a delete operation that raises, `clear_saved_passwords`
leaves the stale entry behind and the subsequent `load_credentials`
returns it — a non-empty map, contradicting the claim that `load`
returns an empty map after `clear` even when the delete fails. -/
theorem clear_stale_keyring_counterexample :
    (load_credentials (clear_saved_passwords
        { stored_credentials := [("h:u", "pw")], keyring_available := true,
          use_keyring := true, keyring_entry := some [("h:u", "pw")],
          keyring_delete_fails := true, cred_file := some [("h:u", "pw")],
          cred_file_mode := 0o600 })).1 = [("h:u", "pw")] ∧
    (load_credentials (clear_saved_passwords
        { stored_credentials := [("h:u", "pw")], keyring_available := true,
          use_keyring := true, keyring_entry := some [("h:u", "pw")],
          keyring_delete_fails := true, cred_file := some [("h:u", "pw")],
          cred_file_mode := 0o600 })).1 ≠ ([] : CredMap) := by
  constructor
  · decide
  · decide

/-- C3 amended: after `clear_saved_passwords` a subsequent
`load_credentials` returns the empty credential map provided the
keyring path cannot serve a stale entry — the keyring is unavailable
or disabled, or the delete succeeded, or no keyring entry was stored;
if the delete raises while a readable entry remains, the stale entry
is returned instead. -/
theorem clear_then_load_empty (st : St)
    (hok : st.keyring_available = false ∨ st.use_keyring = false ∨
      st.keyring_delete_fails = false ∨ st.keyring_entry = none) :
    (load_credentials (clear_saved_passwords st)).1 = ([] : CredMap) := by
  unfold clear_saved_passwords load_credentials
  rcases hok with hk | hk | hk | hk <;>
    by_cases h1 : st.keyring_available <;>
      by_cases h2 : st.use_keyring <;>
        by_cases h3 : st.keyring_delete_fails <;>
          simp_all

/-- Witness for the amended C3 at a concrete state whose keyring
delete succeeds. -/
theorem clear_then_load_empty_witness :
    (({ stored_credentials := [("h:u", "pw")], keyring_available := true,
        use_keyring := true, keyring_entry := some [("h:u", "pw")],
        cred_file := some [("h:u", "pw")] : St }).keyring_delete_fails = false) ∧
    (load_credentials (clear_saved_passwords
        { stored_credentials := [("h:u", "pw")], keyring_available := true,
          use_keyring := true, keyring_entry := some [("h:u", "pw")],
          cred_file := some [("h:u", "pw")] })).1 = ([] : CredMap) :=
  ⟨rfl,
    clear_then_load_empty
      { stored_credentials := [("h:u", "pw")], keyring_available := true,
        use_keyring := true, keyring_entry := some [("h:u", "pw")],
        cred_file := some [("h:u", "pw")] }
      (Or.inr (Or.inr (Or.inl rfl)))⟩

theorem upsert_recent_length_le (r : List String) (h : String) :
    (upsert_recent r h).length ≤ 10 := by
  unfold upsert_recent
  simp [Nat.min_le_left]

theorem not_mem_filter_bne (r : List String) (h : String) :
    h ∉ r.filter (fun x => x != h) := by
  intro hmem
  have := (List.mem_filter.mp hmem).2
  simp at this

theorem upsert_recent_nodup {r : List String} (h : String) (hnd : r.Nodup) :
    (upsert_recent r h).Nodup := by
  unfold upsert_recent
  exact List.Nodup.sublist (List.take_sublist 10 _)
    (List.nodup_cons.mpr ⟨not_mem_filter_bne r h, hnd.filter _⟩)

theorem length_filter_bne_of_nodup {r : List String} {h : String}
    (hnd : r.Nodup) (hmem : h ∈ r) :
    (r.filter (fun x => x != h)).length + 1 = r.length := by
  induction r with
  | nil => cases hmem
  | cons a t ih =>
    rcases List.mem_cons.mp hmem with rfl | hm
    · have hat : h ∉ t := (List.nodup_cons.mp hnd).1
      have hft : t.filter (fun x => x != h) = t :=
        List.filter_eq_self.mpr (fun x hx => by
          simp only [bne_iff_ne, ne_eq, decide_eq_true_eq]
          rintro rfl
          exact hat hx)
      simp [List.filter_cons, hft]
    · have hne : a ≠ h := by
        rintro rfl
        exact (List.nodup_cons.mp hnd).1 hm
      have hrec := ih (List.nodup_cons.mp hnd).2 hm
      have hcond : (a != h) = true := by simp [bne_iff_ne, hne]
      rw [List.filter_cons, if_pos hcond]
      simp only [List.length_cons]
      omega

theorem upsert_recent_move_front {r : List String} {h : String}
    (hnd : r.Nodup) (hlen : r.length ≤ 10) (hmem : h ∈ r) :
    (upsert_recent r h).length = r.length ∧
    (upsert_recent r h).head? = some h ∧
    (upsert_recent r h).count h = 1 ∧
    (upsert_recent r h).Nodup := by
  have hflen := length_filter_bne_of_nodup hnd hmem
  have hcons : (h :: r.filter (fun x => x != h)).length = r.length := by
    simp only [List.length_cons]
    omega
  have htake : upsert_recent r h = h :: r.filter (fun x => x != h) := by
    unfold upsert_recent
    exact List.take_of_length_le (by omega)
  refine ⟨by rw [htake]; exact hcons, by rw [htake]; rfl, ?_, upsert_recent_nodup h hnd⟩
  rw [htake]
  rw [List.count_cons_self]
  rw [List.count_eq_zero.mpr (not_mem_filter_bne r h)]

/-- One registry upsert, as invoked by the password dialog on a
confirmed connection: the tuple carries (hostname, username, domain,
timestamp). -/
def upsert_step (cfg : Config) (o : String × String × String × String) : Config :=
  save_connection_info cfg o.1 o.2.1 o.2.2.1 o.2.2.2

theorem foldl_upsert_step_recent (ops : List (String × String × String × String))
    (cfg : Config) :
    (ops.foldl upsert_step cfg).recent =
      ops.foldl (fun r o => upsert_recent r o.1) cfg.recent := by
  induction ops generalizing cfg with
  | nil => rfl
  | cons a t ih => exact ih (upsert_step cfg a)

theorem foldl_upsert_inv (ops : List String) (r : List String)
    (hnd : r.Nodup) (hlen : r.length ≤ 10) :
    (ops.foldl upsert_recent r).Nodup ∧ (ops.foldl upsert_recent r).length ≤ 10 := by
  induction ops generalizing r with
  | nil => exact ⟨hnd, hlen⟩
  | cons a t ih =>
    simpa [List.foldl_cons] using
      ih (upsert_recent r a) (upsert_recent_nodup a hnd) (upsert_recent_length_le r a)

theorem foldl_upsert_of_nodup {hs : List String} (hnd : hs.Nodup) :
    hs.foldl upsert_recent [] = hs.reverse.take 10 := by
  induction hs using List.reverseRecOn with
  | nil => rfl
  | append_singleton l a ih =>
    have hla := List.nodup_append.mp hnd
    have hani : a ∉ l := by
      intro hmem
      exact hla.2.2 hmem (List.mem_singleton_self a)
    rw [List.foldl_append, List.foldl_cons, List.foldl_nil, ih hla.1]
    unfold upsert_recent
    have hfilter : (l.reverse.take 10).filter (fun x => x != a) = l.reverse.take 10 := by
      apply List.filter_eq_self.mpr
      intro x hx
      have hxl : x ∈ l := List.mem_reverse.mp ((List.take_sublist 10 l.reverse).subset hx)
      simp only [bne_iff_ne, ne_eq, decide_eq_true_eq]
      rintro rfl
      exact hani hxl
    rw [hfilter, List.reverse_append, List.reverse_singleton, List.singleton_append]
    rw [show (10 : Nat) = 9 + 1 from rfl, List.take_succ_cons, List.take_succ_cons,
      List.take_take]
    norm_num

theorem head_not_mem_reverse_take {hs : List String} (hnd : hs.Nodup)
    (hlen : hs.length = 11) {h0 : String} (hh : hs.head? = some h0) :
    h0 ∉ hs.reverse.take 10 := by
  cases hs with
  | nil => cases hh
  | cons a t =>
    have : h0 = a := by simpa using hh.symm
    subst this
    rw [List.reverse_cons]
    have htl : t.reverse.length = 10 := by
      simp only [List.length_reverse]
      simp only [List.length_cons] at hlen
      omega
    rw [← htl, List.take_left]
    intro hmem
    exact (List.nodup_cons.mp hnd).1 (List.mem_reverse.mp hmem)

/-- C4: recent-list invariants of the connection registry.  (1) After
any sequence of upserts from the empty configuration the recent list
is duplicate-free and at most 10 long.  (2) Upserting a hostname that
is already present keeps the length, moves the hostname to the
front, leaves it occurring once, and preserves freedom from
duplicates.  (3) Upserting 11 distinct hostnames from the empty
configuration leaves exactly the last 10 in most-recently-used-first
order; the first (oldest) hostname is evicted. -/
theorem recent_list_invariants :
    (∀ ops : List (String × String × String × String),
      ((ops.foldl upsert_step empty_config).recent).Nodup ∧
      ((ops.foldl upsert_step empty_config).recent).length ≤ 10) ∧
    (∀ (cfg : Config) (h u d n : String), cfg.recent.Nodup → cfg.recent.length ≤ 10 →
      h ∈ cfg.recent →
      (save_connection_info cfg h u d n).recent.length = cfg.recent.length ∧
      (save_connection_info cfg h u d n).recent.head? = some h ∧
      (save_connection_info cfg h u d n).recent.count h = 1 ∧
      (save_connection_info cfg h u d n).recent.Nodup) ∧
    (∀ ops : List (String × String × String × String),
      (ops.map (fun o => o.1)).Nodup → ops.length = 11 →
      (ops.foldl upsert_step empty_config).recent =
        ((ops.map (fun o => o.1)).reverse).take 10 ∧
      (ops.foldl upsert_step empty_config).recent.length = 10 ∧
      ∀ o0 ∈ ops.head?, o0.1 ∉ (ops.foldl upsert_step empty_config).recent) := by
  refine ⟨?_, ?_, ?_⟩
  · intro ops
    rw [foldl_upsert_step_recent]
    have : (ops.map (fun o => o.1)).foldl upsert_recent ([] : List String) =
        ops.foldl (fun r o => upsert_recent r o.1) ([] : List String) :=
      List.foldl_map (fun o => o.1) upsert_recent ops []
    rw [show empty_config.recent = ([] : List String) from rfl, ← this]
    exact foldl_upsert_inv _ [] List.nodup_nil (by simp)
  · intro cfg h u d n hnd hlen hmem
    exact upsert_recent_move_front hnd hlen hmem
  · intro ops hnd hlen
    have hrec : (ops.foldl upsert_step empty_config).recent =
        ((ops.map (fun o => o.1)).reverse).take 10 := by
      rw [foldl_upsert_step_recent,
        show empty_config.recent = ([] : List String) from rfl,
        ← List.foldl_map (fun o => o.1) upsert_recent ops []]
      exact foldl_upsert_of_nodup hnd
    refine ⟨hrec, ?_, ?_⟩
    · rw [hrec]
      simp only [List.length_take, List.length_reverse, List.length_map, hlen]
      rfl
    · intro o0 hh
      rw [hrec]
      refine head_not_mem_reverse_take hnd (by simp [hlen]) ?_
      cases ops with
      | nil => cases hh
      | cons b t =>
        have hob : b = o0 := by simpa using hh
        subst hob
        rfl

/-- Witness for C4 at concrete inputs: a move-to-front upsert on a
two-element recent list, and 11 distinct upserts from the empty
configuration. -/
theorem recent_list_invariants_witness :
    ((save_connection_info { connections := [], recent := ["h", "g"] } "h" "u" "d" "t").recent.length =
        (["h", "g"] : List String).length ∧
      (save_connection_info { connections := [], recent := ["h", "g"] } "h" "u" "d" "t").recent.head? =
        some "h" ∧
      (save_connection_info { connections := [], recent := ["h", "g"] } "h" "u" "d" "t").recent.count "h" = 1 ∧
      (save_connection_info { connections := [], recent := ["h", "g"] } "h" "u" "d" "t").recent.Nodup) ∧
    ((((["a0", "a1", "a2", "a3", "a4", "a5", "a6", "a7", "a8", "a9", "a10"] : List String).map
          (fun h => (h, "u", "d", "t"))).foldl upsert_step empty_config).recent =
      ((((["a0", "a1", "a2", "a3", "a4", "a5", "a6", "a7", "a8", "a9", "a10"] : List String).map
          (fun h => (h, "u", "d", "t"))).map (fun o => o.1)).reverse).take 10) := by
  constructor
  · exact recent_list_invariants.2.1 { connections := [], recent := ["h", "g"] } "h" "u" "d" "t"
      (by decide) (by decide) (by decide)
  · exact (recent_list_invariants.2.2
      ((["a0", "a1", "a2", "a3", "a4", "a5", "a6", "a7", "a8", "a9", "a10"] : List String).map
        (fun h => (h, "u", "d", "t")))
      (by decide) (by decide)).1

end Rdp2Gui
